import Mathlib

/-!
Shallow embedding of the affinity engine of `src/systems/value_game.py`
(`class ValueGame`).  Python floats (timestamps and the multiplier
arithmetic of `_apply_relationship_dynamics`) are modelled as exact
rationals; Python ints as `Int`; the sentiment hit counts as `Nat`
(they are `len(...)` of match lists in `src/cells/text_analyzer.py`).
The external collaborators (sentiment source, storage, config loader)
appear only through their values: the sentiment counts are inputs, the
store content is an explicit `ReadResult`, and `time.time()` is an
explicit `now` argument.
-/

set_option maxRecDepth 8000

namespace ValueGame

/-- Constant `self._min_value = -100` (fixed in `__init__`, never reconfigured). -/
def min_value : Int := -100

/-- Constant `self._cooldown_seconds = 30`. -/
def cooldown_seconds : ℚ := 30

/-- Constant `self._recent_window_seconds = 600`. -/
def recent_window_seconds : ℚ := 600

/-- Constant `self._repeat_window_seconds = 120`. -/
def repeat_window_seconds : ℚ := 120

/-- Constant `self._decay_interval_seconds = 12 * 60 * 60`. -/
def decay_interval_seconds : ℚ := 12 * 60 * 60

/-- The per-relationship configuration left after `load_config` ran:
`self._max_value` (from `_calc_max_value`, which always returns `max 1 _`)
and `self._max_manner_change` (from the character config, default 10). -/
structure Config where
  max_value : Int
  max_manner_change : Int
deriving DecidableEq, Repr

/-- The engine state: `self._value` together with the `self._state` dict
(fields of the version-1 persisted record).  `last_user_text_norm` holds
the repeat-detection fingerprint; the source stores the first 16 hex chars
of the sha256 of the normalized text, an injective-for-our-purposes
deterministic function of the `normalize_user_text` output, so the model
stores the normalized text itself (only equality of fingerprints is ever
observed, by `_update_repeat_state`). -/
structure EngineState where
  version : Int
  value : Int
  last_event_ts : ℚ
  last_change_ts : ℚ
  last_decay_ts : ℚ
  recent_events : List (ℚ × Int)
  pos_streak : Int
  neg_streak : Int
  last_user_text_norm : String
  repeat_count : Int
  repeat_last_ts : ℚ
deriving DecidableEq, Repr

/-- The fresh default state written by `load_config` when storage is
absent or unreadable (lines 59–92). -/
def initialState : EngineState :=
  { version := 1, value := 0, last_event_ts := 0, last_change_ts := 0,
    last_decay_ts := 0, recent_events := [], pos_streak := 0,
    neg_streak := 0, last_user_text_norm := "", repeat_count := 0,
    repeat_last_ts := 0 }

/-- Model of Python 3 `round` on an exact rational: round half to even.
(`Rat.floor` is used rather than `⌊·⌋` so that concrete instances reduce
in the kernel; `pyRound_floor_eq` below identifies the two.) -/
def pyRound (q : ℚ) : Int :=
  let f : Int := q.floor
  if q - (f : ℚ) < 1 / 2 then f
  else if (1 : ℚ) / 2 < q - (f : ℚ) then f + 1
  else if f % 2 = 0 then f else f + 1

/-- The character class of the filler regex of `_is_trivial_message`,
`[嗯哦啊呀哈哼欸诶….。!！?？,，]+`. -/
def fillerChars : List Char :=
  ['嗯', '哦', '啊', '呀', '哈', '哼', '欸', '诶', '…', '.', '。',
   '!', '！', '?', '？', ',', '，']

/-- Model of `ValueGame._is_trivial_message`. -/
def is_trivial_message (text : String) : Bool :=
  let t := text.trim
  if t = "" then true
  else if t.length ≤ 1 then true
  else if t.data.all (fun c => fillerChars.contains c) then true
  else false

/-- The punctuation class stripped by `_normalize_user_text`: fullwidth
and ASCII sentence punctuation, CJK brackets and corner quotes, curly and
plain quotes (codepoints 34 and 39 written numerically below), and both
paren styles. -/
def normStripChars : List Char :=
  ['，', '。', '！', '？', '!', '?', ',', '.', ';', '；', '、', '】', '【',
   '“', '”', Char.ofNat 34, Char.ofNat 39, '’', '‘', '(', ')', '（', '）']

/-- Model of `ValueGame._normalize_user_text`: trim, lowercase, drop whitespace and
the punctuation class.  The source then replaces the result with the first
16 hex chars of its sha256; the digest step is dropped (see
`EngineState.last_user_text_norm`), so an empty result models the
empty string of the source and a non-empty result models its digest. -/
def normalize_user_text (text : String) : String :=
  let t := (text.trim.toLower).data
  let t := t.filter (fun c => ¬ c.isWhitespace ∧ ¬ normStripChars.contains c)
  String.mk t

/-- Model of `ValueGame._update_repeat_state`. -/
def update_repeat_state (s : EngineState) (user_text_norm : String)
    (now : ℚ) : EngineState :=
  if user_text_norm = "" then
    { s with repeat_count := 0, repeat_last_ts := now,
             last_user_text_norm := "" }
  else if user_text_norm = s.last_user_text_norm ∧
      now - s.repeat_last_ts ≤ repeat_window_seconds then
    { s with repeat_count := s.repeat_count + 1, repeat_last_ts := now,
             last_user_text_norm := user_text_norm }
  else
    { s with repeat_count := 1, repeat_last_ts := now,
             last_user_text_norm := user_text_norm }

/-- Model of `ValueGame._append_recent_event`. -/
def append_recent_event (s : EngineState) (delta : Int) (now : ℚ) :
    EngineState :=
  let events := s.recent_events ++ [(now, delta)]
  let events := events.filter (fun e => now - recent_window_seconds ≤ e.1)
  let events := if 60 < events.length
    then events.drop (events.length - 60) else events
  { s with recent_events := events }

/-- Model of `ValueGame._count_recent`: positive / negative event counts inside the
rolling window. -/
def count_recent (s : EngineState) (now : ℚ) : Nat × Nat :=
  let cutoff := now - recent_window_seconds
  let inWin := s.recent_events.filter (fun e => cutoff ≤ e.1)
  ((inWin.filter (fun e => 0 < e.2)).length,
   (inWin.filter (fun e => e.2 < 0)).length)

/-- Model of `ValueGame._update_streaks`. -/
def update_streaks (s : EngineState) (delta : Int) : EngineState :=
  if 0 < delta then
    { s with pos_streak := s.pos_streak + 1, neg_streak := 0 }
  else if delta < 0 then
    { s with neg_streak := s.neg_streak + 1, pos_streak := 0 }
  else
    { s with pos_streak := max 0 (s.pos_streak - 1),
             neg_streak := max 0 (s.neg_streak - 1) }

/-- Model of `ValueGame._decay_streaks`. -/
def decay_streaks (s : EngineState) : EngineState :=
  { s with pos_streak := max 0 (s.pos_streak - 1),
           neg_streak := max 0 (s.neg_streak - 1) }

/-- The cooldown multiplier of `_apply_relationship_dynamics`
(lines 381–384): `0.35` only when `last_change_ts > 0` and the change was
within the cooldown window. -/
def cooldown_mult (s : EngineState) (now : ℚ) : ℚ :=
  if 0 < s.last_change_ts ∧ now - s.last_change_ts < cooldown_seconds
  then 7 / 20 else 1

/-- The level ratio of `_apply_relationship_dynamics` (lines 371–373):
`clamp(value / max_value, 0, 1)`, `0` when `max_value ≤ 0`. -/
def ratio_of (cfg : Config) (s : EngineState) : ℚ :=
  if 0 < cfg.max_value then
    max 0 (min 1 ((s.value : ℚ) / (cfg.max_value : ℚ)))
  else 0

/-- Lines 409–414 of `_apply_relationship_dynamics`: round the float, and
when rounding erased a signal of magnitude at least `0.6`, force `±1` in
its direction. -/
def force_round (final_float : ℚ) : Int :=
  let final_int := pyRound final_float
  if final_int = 0 then
    (if 3/5 ≤ |final_float| then (if 0 < final_float then 1 else -1) else 0)
  else final_int

/-- Model of `ValueGame._apply_relationship_dynamics`.  The `user_text` parameter of
the source is unused there and omitted; the emotion counts are kept (also
unused by the source body). -/
def apply_relationship_dynamics (cfg : Config) (s : EngineState)
    (base_change : Int) (_positive_emotions _negative_emotions : Nat)
    (now : ℚ) : Int :=
  if base_change = 0 then 0
  else
    let pn := count_recent s now
    let cd := cooldown_mult s now
    let final_float : ℚ :=
      if 0 < base_change then
        let pos_level_mult :=
          max (7/20) (min (6/5) (11/10 - ratio_of cfg s * (3/5)))
        let pos_diminish : ℚ := 1 / (1 + (pn.1 : ℚ) / 3)
        let repeat_mult : ℚ := if 2 ≤ s.repeat_count then 11/20 else 1
        let streak_mult : ℚ := 1 + min (1/5) ((s.pos_streak : ℚ) * (1/20))
        (base_change : ℚ) * pos_level_mult * pos_diminish * repeat_mult *
          cd * streak_mult
      else
        let neg_level_mult :=
          max (3/5) (min (8/5) (13/20 + (1 - ratio_of cfg s) * (7/10)))
        let neg_diminish : ℚ := 1 / (1 + (pn.2 : ℚ) / 5)
        let repeat_mult : ℚ := if 2 ≤ s.repeat_count then 23/20 else 1
        let streak_mult : ℚ := 1 + min (7/20) ((s.neg_streak : ℚ) * (3/25))
        (base_change : ℚ) * neg_level_mult * neg_diminish * repeat_mult *
          cd * streak_mult
    max (-cfg.max_manner_change)
      (min cfg.max_manner_change (force_round final_float))

/-- Model of `ValueGame.change_manner_value` (state part; the save is a store write). -/
def change_manner_value (cfg : Config) (s : EngineState) (amount : Int)
    (now : ℚ) : EngineState :=
  { s with value := max min_value (min cfg.max_value (s.value + amount)),
           last_change_ts := now }

/-- The effective reference timestamp of `_apply_decay` (lines 273–276):
`last_decay_ts`, falling back to `last_event_ts` when unset. -/
def effective_decay_ts (s : EngineState) : ℚ :=
  if s.last_decay_ts ≤ 0 then s.last_event_ts else s.last_decay_ts

/-- Model of `ValueGame._apply_decay`. -/
def apply_decay (s : EngineState) (now : ℚ) : EngineState :=
  let ldt := effective_decay_ts s
  if ldt ≤ 0 then { s with last_decay_ts := now }
  else
    let inactive := now - ldt
    if inactive < decay_interval_seconds then s
    else
      let steps : Int := (inactive / decay_interval_seconds).floor
      let decay_amount := min 10 steps
      if decay_amount ≤ 0 then s
      else if s.value = 0 then { s with last_decay_ts := now }
      else if 0 < s.value then
        { s with value := max 0 (s.value - decay_amount),
                 last_decay_ts := now }
      else
        { s with value := min 0 (s.value + decay_amount),
                 last_decay_ts := now }

/-- Model of `ValueGame.reset_value`. -/
def reset_value (s : EngineState) (now : ℚ) : EngineState :=
  { s with value := 0, last_change_ts := now }

/-- The shared tail of both branches of `determine_manner_change`
(lines 189–199 and 226–236, textually duplicated in the source): stamp
`last_event_ts`, update the repeat tracker, then either apply a nonzero
delta (bounded mutation, streak update, event append) or decay the
streaks. -/
def event_tail (cfg : Config) (s : EngineState) (change_amount : Int)
    (user_text_norm : String) (now : ℚ) : EngineState :=
  let s1 := { s with last_event_ts := now }
  let s2 := update_repeat_state s1 user_text_norm now
  if change_amount ≠ 0 then
    let s3 := change_manner_value cfg s2 change_amount now
    let s4 := update_streaks s3 change_amount
    append_recent_event s4 change_amount now
  else decay_streaks s2

/-- Lines 204–215 of `determine_manner_change`: base delta from the
sentiment counts (only reached when `positive + negative > 0`):
intensity-scaled mean sign, rounded, forced to `±1` on a rounding-erased
majority, clamped to the per-event cap. -/
def derive_base_change (cfg : Config)
    (positive_emotions negative_emotions : Nat) : Int :=
  let total := positive_emotions + negative_emotions
  let base_score : ℚ :=
    ((positive_emotions : ℚ) - (negative_emotions : ℚ)) / (total : ℚ)
  let intensity : ℚ := min 1 ((total : ℚ) / 3)
  let sentiment_score := base_score * intensity
  let raw_change := pyRound (sentiment_score * (cfg.max_manner_change : ℚ))
  let raw_change : Int :=
    if raw_change = 0 then
      (if negative_emotions < positive_emotions then 1
       else if positive_emotions < negative_emotions then -1
       else raw_change)
    else raw_change
  max (-cfg.max_manner_change) (min cfg.max_manner_change raw_change)

/-- Model of `ValueGame.determine_manner_change`, for a loaded preset.  `text` is
the correspondent utterance (`last_user_text`, or the line extracted from
`memory_content` by `_extract_last_user_text_from_memory` when that is
empty); `positive_emotions` / `negative_emotions` are the counts the
external sentiment analyzer returned for it.  The result pairs the new
state with `self._value_change`: `none` models the early return when no
utterance is available (no applicable change, for the caller). -/
def determine_manner_change (cfg : Config) (s : EngineState)
    (text : String) (positive_emotions negative_emotions : Nat)
    (now : ℚ) : EngineState × Option Int :=
  let s0 := apply_decay s now
  let last_content := text.trim
  if last_content = "" then (s0, none)
  else
    let total := positive_emotions + negative_emotions
    if total = 0 then
      let change_amount : Int :=
        if is_trivial_message last_content then 0
        else apply_relationship_dynamics cfg s0 1 0 0 now
      (event_tail cfg s0 change_amount (normalize_user_text last_content) now,
       some change_amount)
    else
      let base_change := derive_base_change cfg positive_emotions
        negative_emotions
      let change_amount := apply_relationship_dynamics cfg s0 base_change
        positive_emotions negative_emotions now
      (event_tail cfg s0 change_amount (normalize_user_text last_content) now,
       some change_amount)

/-- The persisted record as decoded from storage: a JSON object whose
fields may each be absent (`data.get(key, default)` semantics of
`_load_state` and the lazy `self._state.get(...)` reads). -/
structure StateRecord where
  version : Option Int
  value : Option Int
  last_event_ts : Option ℚ
  last_change_ts : Option ℚ
  last_decay_ts : Option ℚ
  recent_events : Option (List (ℚ × Int))
  pos_streak : Option Int
  neg_streak : Option Int
  last_user_text_norm : Option String
  repeat_count : Option Int
  repeat_last_ts : Option ℚ
deriving DecidableEq, Repr

/-- The effective state adopted when `_load_state` keeps a versioned
record as `self._state`: every later read of a field goes through
`self._state.get(key, default)`, so absent fields behave as their
defaults (`0`, `[]`, `""`; the version default at save time is 1). -/
def stateOfRecord (r : StateRecord) : EngineState :=
  { version := r.version.getD 1,
    value := r.value.getD 0,
    last_event_ts := r.last_event_ts.getD 0,
    last_change_ts := r.last_change_ts.getD 0,
    last_decay_ts := r.last_decay_ts.getD 0,
    recent_events := r.recent_events.getD [],
    pos_streak := r.pos_streak.getD 0,
    neg_streak := r.neg_streak.getD 0,
    last_user_text_norm := r.last_user_text_norm.getD "",
    repeat_count := r.repeat_count.getD 0,
    repeat_last_ts := r.repeat_last_ts.getD 0 }

/-- Model of `ValueGame._load_state`: a dict with a `"version"` key is adopted
wholesale; anything else is legacy bare-score data (score extracted when
the key exists, everything else re-defaulted). -/
def load_state (r : StateRecord) : EngineState :=
  if r.version.isSome then stateOfRecord r
  else { initialState with value := r.value.getD 0 }

/-- Model of `ValueGame._save_value_to_status_file` (serialization part): the
state dict is written with `version` renormalized by
`int(self._state.get("version", 1) or 1)` (a falsy `0` becomes `1`) and
`value` synced from `self._value`; every field is present in the output. -/
def serialize_state (s : EngineState) : StateRecord :=
  { version := some (if s.version = 0 then 1 else s.version),
    value := some s.value,
    last_event_ts := some s.last_event_ts,
    last_change_ts := some s.last_change_ts,
    last_decay_ts := some s.last_decay_ts,
    recent_events := some s.recent_events,
    pos_streak := some s.pos_streak,
    neg_streak := some s.neg_streak,
    last_user_text_norm := some s.last_user_text_norm,
    repeat_count := some s.repeat_count,
    repeat_last_ts := some s.repeat_last_ts }

/-- What a read of the store can produce for `load_config` (lines 52–92):
the awaited read raises, returns nothing, returns bytes `json.loads`
rejects, returns JSON that is not an object, or returns an object. -/
inductive ReadResult where
  | failure
  | absent
  | corrupt
  | notDict
  | record (r : StateRecord)
deriving DecidableEq, Repr

/-- The state `load_config` ends up with before clamping: a readable
object goes through `_load_state`; an absent value initializes defaults;
a raising read or undecodable payload is caught by the `except` block and
also initializes defaults (the error is logged, never re-raised).  A
non-dict JSON value reaches `_load_state`, whose legacy branch defaults
everything with score 0. -/
def load_from_store : ReadResult → EngineState
  | .failure => initialState
  | .absent => initialState
  | .corrupt => initialState
  | .notDict => { initialState with value := 0 }
  | .record r => load_state r

/-- Model of `ValueGame.load_config` (state part): read the store, then clamp the
score into `[min_value, max_value]` (lines 99–104). -/
def load_config (cfg : Config) (res : ReadResult) : EngineState :=
  let s := load_from_store res
  let v := if cfg.max_value < s.value then cfg.max_value else s.value
  let v := if v < min_value then min_value else v
  { s with value := v }

/-- The engine operations a caller can perform on one relationship, as in
the claims: (re)load from the store, the public update entry point, a
direct bounded mutation, a decay evaluation, and reset. -/
inductive Op where
  | load (res : ReadResult)
  | determine (text : String) (positive_emotions negative_emotions : Nat)
      (now : ℚ)
  | changeManner (amount : Int) (now : ℚ)
  | decay (now : ℚ)
  | reset (now : ℚ)
deriving Repr

/-- One engine operation applied to the state. -/
def applyOp (cfg : Config) (s : EngineState) : Op → EngineState
  | .load res => load_config cfg res
  | .determine text p n now => (determine_manner_change cfg s text p n now).1
  | .changeManner amount now => change_manner_value cfg s amount now
  | .decay now => apply_decay s now
  | .reset now => reset_value s now

/-- A state reachable from the fresh default state by a sequence of
engine operations. -/
def Reachable (cfg : Config) (s : EngineState) : Prop :=
  ∃ ops : List Op, s = ops.foldl (applyOp cfg) initialState

/-- The stock configuration: `max_value = 100` (default band ceiling),
`max_manner_change = 10` (config default). -/
def defaultConfig : Config := { max_value := 100, max_manner_change := 10 }

/-- Eleven sends of one identical, substantive, strongly-positive message
(sentiment counts 3/0) at one-second intervals. -/
def c2Ops : List Op :=
  [Op.determine "abcd" 3 0 1000, Op.determine "abcd" 3 0 1001,
   Op.determine "abcd" 3 0 1002, Op.determine "abcd" 3 0 1003,
   Op.determine "abcd" 3 0 1004, Op.determine "abcd" 3 0 1005,
   Op.determine "abcd" 3 0 1006, Op.determine "abcd" 3 0 1007,
   Op.determine "abcd" 3 0 1008, Op.determine "abcd" 3 0 1009,
   Op.determine "abcd" 3 0 1010]

/-- The state after the first `k` operations of `c2Ops` (checked stepwise
below). -/
def c2s : Nat → EngineState
  | 0 => initialState
  | 1 =>
    { version := 1, value := 10, last_event_ts := 1000,
      last_change_ts := 1000, last_decay_ts := 1000,
      recent_events := [(1000, 10)], pos_streak := 1, neg_streak := 0,
      last_user_text_norm := "abcd", repeat_count := 1,
      repeat_last_ts := 1000 }
  | (k+2) =>
    { version := 1, value := 13 + k, last_event_ts := 1001 + (k : ℚ),
      last_change_ts := 1001 + (k : ℚ), last_decay_ts := 1000,
      recent_events := (1000, 10) :: (1001, 3) ::
        (List.range k).map (fun i => ((1002 : ℚ) + i, 1)),
      pos_streak := 2 + k, neg_streak := 0,
      last_user_text_norm := "abcd", repeat_count := 2 + k,
      repeat_last_ts := 1001 + (k : ℚ) }

/-- A state whose decay reference is set but whose inactivity window is
still open. -/
def c4State : EngineState := { initialState with value := 50, last_decay_ts := 100 }

/-- A fresh-history state with the score one below the default ceiling. -/
def c6State : EngineState := { initialState with value := 99 }

/-- A positive-score state due three decay steps at `now = 130600`. -/
def c3State : EngineState := { initialState with value := 50, last_decay_ts := 1000 }

/-- The legacy bare-score record `{"value": 42}`. -/
def legacyRecord42 : StateRecord :=
  { version := none, value := some 42, last_event_ts := none,
    last_change_ts := none, last_decay_ts := none, recent_events := none,
    pos_streak := none, neg_streak := none, last_user_text_norm := none,
    repeat_count := none, repeat_last_ts := none }

/-- A fresh-history state with a negative score. -/
def c6NegState : EngineState := { initialState with value := -50 }

/-- A state with every field non-default, for the round-trip witness. -/
def c8State : EngineState :=
  { version := 1, value := 7, last_event_ts := 5/2, last_change_ts := 3,
    last_decay_ts := 4, recent_events := [(1, 2), (3, -1)],
    pos_streak := 2, neg_streak := 0, last_user_text_norm := "abcd",
    repeat_count := 3, repeat_last_ts := 9/2 }

/-! ### Basic facts about the rounding primitive -/

lemma ratFloor_eq (q : ℚ) : q.floor = ⌊q⌋ := by
  rw [Rat.floor_def', ← Rat.floor_def]

lemma pyRound_eq (q : ℚ) :
    pyRound q =
      if q - (⌊q⌋ : ℚ) < 1 / 2 then ⌊q⌋
      else if (1 : ℚ) / 2 < q - (⌊q⌋ : ℚ) then ⌊q⌋ + 1
      else if ⌊q⌋ % 2 = 0 then ⌊q⌋ else ⌊q⌋ + 1 := by
  unfold pyRound
  rw [ratFloor_eq]

lemma floor_le_pyRound (q : ℚ) : ⌊q⌋ ≤ pyRound q := by
  rw [pyRound_eq]; split_ifs <;> omega

lemma pyRound_le_floor_add_one (q : ℚ) : pyRound q ≤ ⌊q⌋ + 1 := by
  rw [pyRound_eq]; split_ifs <;> omega

lemma pyRound_nonneg {q : ℚ} (h : 0 ≤ q) : 0 ≤ pyRound q :=
  le_trans (Int.floor_nonneg.mpr h) (floor_le_pyRound q)

lemma pyRound_nonpos {q : ℚ} (h : q ≤ 0) : pyRound q ≤ 0 := by
  have h1 : (⌊q⌋ : ℚ) ≤ q := Int.floor_le q
  have h2 : ⌊q⌋ ≤ 0 := by exact_mod_cast Int.floor_le_floor h
  rw [pyRound_eq]
  split_ifs with hA hB hC
  · exact h2
  · by_contra hcon
    have hf0 : ⌊q⌋ = 0 := by omega
    rw [hf0] at hB
    push_cast at hB
    linarith
  · exact h2
  · have hf0 : ⌊q⌋ % 2 ≠ 0 := hC
    omega

lemma pyRound_mono {p q : ℚ} (h : p ≤ q) : pyRound p ≤ pyRound q := by
  have hf : ⌊p⌋ ≤ ⌊q⌋ := Int.floor_le_floor h
  rcases lt_or_eq_of_le hf with hlt | heq
  · have h1 := pyRound_le_floor_add_one p
    have h2 := floor_le_pyRound q
    omega
  · have hd : p - (⌊p⌋ : ℚ) ≤ q - (⌊q⌋ : ℚ) := by
      rw [← heq]; linarith
    rw [pyRound_eq, pyRound_eq, ← heq]
    split_ifs <;> first | omega | linarith

lemma pyRound_intCast (n : ℤ) : pyRound (n : ℚ) = n := by
  rw [pyRound_eq]
  simp

lemma pyRound_eq_zero_bound {q : ℚ} (h : pyRound q = 0) :
    -(1 / 2) ≤ q ∧ q ≤ 1 / 2 := by
  have h1 : (⌊q⌋ : ℚ) ≤ q := Int.floor_le q
  have h2 : q < (⌊q⌋ : ℚ) + 1 := Int.lt_floor_add_one q
  rw [pyRound_eq] at h
  split_ifs at h with hA hB hC
  · rw [h] at h1 hA
    push_cast at h1 hA
    constructor <;> linarith
  · have hf : ⌊q⌋ = -1 := by omega
    rw [hf] at hA hB h2
    push_cast at hA hB h2
    constructor <;> linarith
  · rw [h] at hA hB
    push_cast at hA hB
    constructor <;> linarith
  · have hf : ⌊q⌋ = -1 := by omega
    rw [hf] at hA hB
    push_cast at hA hB
    constructor <;> linarith

/-- The force-to-`±1` branch can never fire on exact arithmetic: a float
that rounds to `0` has magnitude at most `1/2 < 0.6`. -/
lemma force_round_eq_pyRound (q : ℚ) : force_round q = pyRound q := by
  simp only [force_round]
  split_ifs with h1 h2 h3
  · exfalso
    rcases pyRound_eq_zero_bound h1 with ⟨hl, hr⟩
    have habs : |q| ≤ 1 / 2 := abs_le.mpr ⟨by linarith, hr⟩
    linarith
  · exfalso
    rcases pyRound_eq_zero_bound h1 with ⟨hl, hr⟩
    have habs : |q| ≤ 1 / 2 := abs_le.mpr ⟨by linarith, hr⟩
    linarith
  · exact h1.symm
  · rfl

/-! ### Field bookkeeping of the state updaters -/

@[simp] lemma update_repeat_state_value (s : EngineState) (n : String)
    (t : ℚ) : (update_repeat_state s n t).value = s.value := by
  unfold update_repeat_state; split_ifs <;> rfl

@[simp] lemma update_repeat_state_pos_streak (s : EngineState) (n : String)
    (t : ℚ) : (update_repeat_state s n t).pos_streak = s.pos_streak := by
  unfold update_repeat_state; split_ifs <;> rfl

@[simp] lemma update_repeat_state_neg_streak (s : EngineState) (n : String)
    (t : ℚ) : (update_repeat_state s n t).neg_streak = s.neg_streak := by
  unfold update_repeat_state; split_ifs <;> rfl

@[simp] lemma append_recent_event_value (s : EngineState) (d : Int)
    (t : ℚ) : (append_recent_event s d t).value = s.value := rfl

@[simp] lemma append_recent_event_pos_streak (s : EngineState) (d : Int)
    (t : ℚ) : (append_recent_event s d t).pos_streak = s.pos_streak := rfl

@[simp] lemma append_recent_event_neg_streak (s : EngineState) (d : Int)
    (t : ℚ) : (append_recent_event s d t).neg_streak = s.neg_streak := rfl

@[simp] lemma change_manner_value_value (cfg : Config) (s : EngineState)
    (a : Int) (t : ℚ) : (change_manner_value cfg s a t).value =
      max min_value (min cfg.max_value (s.value + a)) := rfl

@[simp] lemma change_manner_value_pos_streak (cfg : Config)
    (s : EngineState) (a : Int) (t : ℚ) :
    (change_manner_value cfg s a t).pos_streak = s.pos_streak := rfl

@[simp] lemma change_manner_value_neg_streak (cfg : Config)
    (s : EngineState) (a : Int) (t : ℚ) :
    (change_manner_value cfg s a t).neg_streak = s.neg_streak := rfl

@[simp] lemma update_streaks_value (s : EngineState) (d : Int) :
    (update_streaks s d).value = s.value := by
  unfold update_streaks; split_ifs <;> rfl

@[simp] lemma decay_streaks_value (s : EngineState) :
    (decay_streaks s).value = s.value := rfl

lemma update_streaks_pos_streak (s : EngineState) (d : Int) :
    (update_streaks s d).pos_streak =
      if 0 < d then s.pos_streak + 1
      else if d < 0 then 0 else max 0 (s.pos_streak - 1) := by
  unfold update_streaks; split_ifs <;> rfl

lemma update_streaks_neg_streak (s : EngineState) (d : Int) :
    (update_streaks s d).neg_streak =
      if 0 < d then 0
      else if d < 0 then s.neg_streak + 1 else max 0 (s.neg_streak - 1) := by
  unfold update_streaks; split_ifs <;> rfl

@[simp] lemma apply_decay_pos_streak (s : EngineState) (now : ℚ) :
    (apply_decay s now).pos_streak = s.pos_streak := by
  simp only [apply_decay]; split_ifs <;> rfl

@[simp] lemma apply_decay_neg_streak (s : EngineState) (now : ℚ) :
    (apply_decay s now).neg_streak = s.neg_streak := by
  simp only [apply_decay]; split_ifs <;> rfl

@[simp] lemma apply_decay_last_change_ts (s : EngineState) (now : ℚ) :
    (apply_decay s now).last_change_ts = s.last_change_ts := by
  simp only [apply_decay]; split_ifs <;> rfl

/-- The score after `event_tail`: clamped mutation on a nonzero delta,
untouched on a zero delta. -/
lemma event_tail_value (cfg : Config) (s : EngineState) (c : Int)
    (m : String) (now : ℚ) :
    (event_tail cfg s c m now).value =
      if c = 0 then s.value
      else max min_value (min cfg.max_value (s.value + c)) := by
  simp only [event_tail]
  split_ifs with h1 h2 <;> simp_all

lemma event_tail_pos_streak (cfg : Config) (s : EngineState) (c : Int)
    (m : String) (now : ℚ) :
    (event_tail cfg s c m now).pos_streak =
      if 0 < c then s.pos_streak + 1
      else if c < 0 then 0 else max 0 (s.pos_streak - 1) := by
  by_cases h1 : c = 0
  · simp [event_tail, h1, decay_streaks]
  · simp [event_tail, h1, update_streaks_pos_streak]

lemma event_tail_neg_streak (cfg : Config) (s : EngineState) (c : Int)
    (m : String) (now : ℚ) :
    (event_tail cfg s c m now).neg_streak =
      if 0 < c then 0
      else if c < 0 then s.neg_streak + 1 else max 0 (s.neg_streak - 1) := by
  by_cases h1 : c = 0
  · simp [event_tail, h1, decay_streaks]
  · simp [event_tail, h1, update_streaks_neg_streak]

/-- Branch characterization of `determine_manner_change`: either the
utterance is blank and the call is a decay-only no-op, or the updated
state is `event_tail` of the decayed state at the signalled delta. -/
lemma determine_shape (cfg : Config) (s : EngineState) (text : String)
    (p n : Nat) (now : ℚ) :
    (text.trim = "" ∧
      determine_manner_change cfg s text p n now = (apply_decay s now, none)) ∨
    (∃ c, determine_manner_change cfg s text p n now =
      (event_tail cfg (apply_decay s now) c (normalize_user_text text.trim)
        now, some c)) := by
  unfold determine_manner_change
  by_cases h : text.trim = ""
  · left
    exact ⟨h, by simp [h]⟩
  · right
    by_cases ht : p + n = 0
    · refine ⟨(if is_trivial_message text.trim then 0
        else apply_relationship_dynamics cfg (apply_decay s now) 1 0 0 now),
        ?_⟩
      simp [h, ht]
    · refine ⟨apply_relationship_dynamics cfg (apply_decay s now)
        (derive_base_change cfg p n) p n now, ?_⟩
      simp [h, ht]

/-! ### Score bounds (C1) -/

lemma change_manner_value_bounds (cfg : Config) (s : EngineState)
    (a : Int) (now : ℚ) (hmax : min_value ≤ cfg.max_value) :
    min_value ≤ (change_manner_value cfg s a now).value ∧
      (change_manner_value cfg s a now).value ≤ cfg.max_value := by
  simp only [change_manner_value_value]
  omega

lemma apply_decay_value_bounds {M : Int} (s : EngineState) (now : ℚ)
    (hM : 0 ≤ M) (h1 : min_value ≤ s.value) (h2 : s.value ≤ M) :
    min_value ≤ (apply_decay s now).value ∧ (apply_decay s now).value ≤ M := by
  simp only [apply_decay, min_value] at *
  split_ifs <;> simp_all <;> omega

lemma load_config_value_bounds (cfg : Config) (res : ReadResult)
    (hmax : min_value ≤ cfg.max_value) :
    min_value ≤ (load_config cfg res).value ∧
      (load_config cfg res).value ≤ cfg.max_value := by
  simp only [load_config, min_value] at *
  split_ifs <;> simp_all

lemma applyOp_bounds (cfg : Config) (hmax : 1 ≤ cfg.max_value)
    (s : EngineState) (op : Op) (h1 : min_value ≤ s.value)
    (h2 : s.value ≤ cfg.max_value) :
    min_value ≤ (applyOp cfg s op).value ∧
      (applyOp cfg s op).value ≤ cfg.max_value := by
  have hmax' : min_value ≤ cfg.max_value := by
    simp only [min_value]; omega
  have hM0 : (0 : Int) ≤ cfg.max_value := by omega
  cases op with
  | load res => exact load_config_value_bounds cfg res hmax'
  | determine text p n now =>
    rcases determine_shape cfg s text p n now with ⟨_, heq⟩ | ⟨c, heq⟩
    · simp only [applyOp, heq]
      exact apply_decay_value_bounds s now hM0 h1 h2
    · simp only [applyOp, heq, event_tail_value]
      rcases apply_decay_value_bounds s now hM0 h1 h2 with ⟨g1, g2⟩
      split_ifs
      · exact ⟨g1, g2⟩
      · simp only [min_value] at *
        omega
  | changeManner a now => exact change_manner_value_bounds cfg s a now hmax'
  | decay now => exact apply_decay_value_bounds s now hM0 h1 h2
  | reset now =>
    simp only [applyOp, reset_value, min_value]
    omega

/-- C1: for every sequence of engine operations starting from a state
whose score lies in `[min_value, max_value]` (with `min_value = -100` and
`max_value ≥ 1` as `_calc_max_value` guarantees), the score stays in
`[min_value, max_value]` after every operation — the statement quantifies
over all start states, so it applies to every prefix of the sequence. -/
theorem score_bounds_invariant (cfg : Config) (hmax : 1 ≤ cfg.max_value)
    (s : EngineState) (h1 : min_value ≤ s.value)
    (h2 : s.value ≤ cfg.max_value) (ops : List Op) :
    min_value ≤ (ops.foldl (applyOp cfg) s).value ∧
      (ops.foldl (applyOp cfg) s).value ≤ cfg.max_value := by
  induction ops generalizing s with
  | nil => exact ⟨h1, h2⟩
  | cons op rest ih =>
    rcases applyOp_bounds cfg hmax s op h1 h2 with ⟨g1, g2⟩
    simpa only [List.foldl] using ih (applyOp cfg s op) g1 g2

/-- Witness for C1 at the stock configuration, the fresh state, and a
sample operation sequence. -/
theorem score_bounds_invariant_witness :
    (1 ≤ defaultConfig.max_value) ∧ min_value ≤ initialState.value ∧
      initialState.value ≤ defaultConfig.max_value ∧
      (min_value ≤
          (([Op.reset 5]).foldl (applyOp defaultConfig) initialState).value ∧
        (([Op.reset 5]).foldl (applyOp defaultConfig) initialState).value ≤
          defaultConfig.max_value) :=
  ⟨by decide, by decide, by decide,
    score_bounds_invariant defaultConfig (by decide) initialState
      (by decide) (by decide) [Op.reset 5]⟩

/-! ### Decay evaluation (C3, C4) -/

lemma decay_steps_ge_one {s : EngineState} {now : ℚ}
    (h : decay_interval_seconds ≤ now - effective_decay_ts s) :
    1 ≤ ((now - effective_decay_ts s) / decay_interval_seconds).floor := by
  rw [ratFloor_eq, Int.le_floor]
  have hpos : (0 : ℚ) < decay_interval_seconds := by
    norm_num [decay_interval_seconds]
  rw [show ((1 : ℤ) : ℚ) = 1 by norm_num, le_div_iff₀ hpos]
  simp only [decay_interval_seconds] at *
  linarith

lemma apply_decay_unset (s : EngineState) (now : ℚ)
    (h : effective_decay_ts s ≤ 0) :
    apply_decay s now = { s with last_decay_ts := now } := by
  simp only [apply_decay]
  rw [if_pos h]

lemma apply_decay_nofire (s : EngineState) (now : ℚ)
    (h1 : 0 < effective_decay_ts s)
    (h2 : now - effective_decay_ts s < decay_interval_seconds) :
    apply_decay s now = s := by
  simp only [apply_decay]
  rw [if_neg (not_le.mpr h1), if_pos h2]

lemma apply_decay_fire (s : EngineState) (now : ℚ)
    (h1 : 0 < effective_decay_ts s)
    (h2 : decay_interval_seconds ≤ now - effective_decay_ts s) :
    apply_decay s now =
      if s.value = 0 then { s with last_decay_ts := now }
      else if 0 < s.value then
        { s with value := max 0 (s.value - min 10
            ((now - effective_decay_ts s) / decay_interval_seconds).floor),
                 last_decay_ts := now }
      else
        { s with value := min 0 (s.value + min 10
            ((now - effective_decay_ts s) / decay_interval_seconds).floor),
                 last_decay_ts := now } := by
  have hstep := decay_steps_ge_one h2
  simp only [apply_decay]
  rw [if_neg (not_le.mpr h1), if_neg (not_lt.mpr h2),
    if_neg (by omega : ¬ (min 10 ((now - effective_decay_ts s) /
      decay_interval_seconds).floor ≤ 0))]

lemma apply_decay_value_zero (s : EngineState) (now : ℚ)
    (hv : s.value = 0) : (apply_decay s now).value = 0 := by
  simp only [apply_decay]
  split_ifs <;> simp_all

lemma apply_decay_value_pos (s : EngineState) (now : ℚ)
    (h1 : 0 < effective_decay_ts s)
    (h2 : decay_interval_seconds ≤ now - effective_decay_ts s)
    (hv : 0 < s.value) :
    (apply_decay s now).value = max 0 (s.value - min 10
      ((now - effective_decay_ts s) / decay_interval_seconds).floor) := by
  rw [apply_decay_fire s now h1 h2, if_neg (by omega), if_pos hv]

lemma apply_decay_value_neg (s : EngineState) (now : ℚ)
    (h1 : 0 < effective_decay_ts s)
    (h2 : decay_interval_seconds ≤ now - effective_decay_ts s)
    (hv : s.value < 0) :
    (apply_decay s now).value = min 0 (s.value + min 10
      ((now - effective_decay_ts s) / decay_interval_seconds).floor) := by
  rw [apply_decay_fire s now h1 h2, if_neg (by omega),
    if_neg (by omega : ¬ 0 < s.value)]

/-- C3: one decay evaluation changes the score by at most 10 (and by at
most `min(10, ⌊inactive/interval⌋)` when it fires), never moves a
positive score below zero or a negative score above zero, leaves a zero
score at zero, and — when the inactivity window has elapsed and the score
is nonzero — moves the score strictly toward zero. -/
theorem decay_toward_zero (s : EngineState) (now : ℚ) :
    |(apply_decay s now).value - s.value| ≤ 10 ∧
    (s.value = 0 → (apply_decay s now).value = 0) ∧
    (0 < s.value → 0 ≤ (apply_decay s now).value ∧
      (apply_decay s now).value ≤ s.value) ∧
    (s.value < 0 → (apply_decay s now).value ≤ 0 ∧
      s.value ≤ (apply_decay s now).value) ∧
    (0 < effective_decay_ts s →
      decay_interval_seconds ≤ now - effective_decay_ts s →
      |(apply_decay s now).value - s.value| ≤ min 10
        ((now - effective_decay_ts s) / decay_interval_seconds).floor ∧
      (s.value ≠ 0 → |(apply_decay s now).value| < |s.value|)) := by
  rcases le_or_lt (effective_decay_ts s) 0 with hu | hpf
  · have hv : (apply_decay s now).value = s.value := by
      rw [apply_decay_unset s now hu]
    rw [hv]
    exact ⟨by simp, fun h => h, fun h => ⟨le_of_lt h, le_refl _⟩,
      fun h => ⟨le_of_lt h, le_refl _⟩,
      fun hc => absurd hc (not_lt.mpr hu)⟩
  · rcases lt_or_le (now - effective_decay_ts s) decay_interval_seconds
      with hn | hf
    · have hv : (apply_decay s now).value = s.value := by
        rw [apply_decay_nofire s now hpf hn]
      rw [hv]
      exact ⟨by simp, fun h => h, fun h => ⟨le_of_lt h, le_refl _⟩,
        fun h => ⟨le_of_lt h, le_refl _⟩,
        fun _ hc => absurd hc (not_le.mpr hn)⟩
    · have hstep := decay_steps_ge_one hf
      rcases lt_trichotomy s.value 0 with hvn | hv0 | hvp
      · have hv := apply_decay_value_neg s now hpf hf hvn
        rw [hv]
        refine ⟨by rw [abs_le]; omega, by omega, by omega,
          fun _ => ⟨by omega, by omega⟩, fun _ _ => ⟨by rw [abs_le]; omega,
          fun _ => ?_⟩⟩
        rw [abs_of_nonpos (by omega), abs_of_neg hvn]
        omega
      · have hv := apply_decay_value_zero s now hv0
        rw [hv, hv0]
        exact ⟨by simp, fun _ => rfl, by omega, by omega,
          fun _ _ => ⟨by simp; omega, fun hne => absurd rfl hne⟩⟩
      · have hv := apply_decay_value_pos s now hpf hf hvp
        rw [hv]
        refine ⟨by rw [abs_le]; omega, by omega,
          fun _ => ⟨by omega, by omega⟩, by omega, fun _ _ => ⟨by
            rw [abs_le]; omega, fun _ => ?_⟩⟩
        rw [abs_of_nonneg (by omega), abs_of_pos hvp]
        omega

/-- Witness for C3: score 50 with three elapsed decay intervals
(`last_decay_ts = 1000`, `now = 1000 + 3·43200`) decays by 3, strictly
toward zero. -/
theorem decay_toward_zero_witness :
    (0 < c3State.value ∧ 0 ≤ (apply_decay c3State 130600).value ∧
      (apply_decay c3State 130600).value ≤ c3State.value) ∧
    (0 < effective_decay_ts c3State ∧
      decay_interval_seconds ≤ 130600 - effective_decay_ts c3State ∧
      c3State.value ≠ 0 ∧
      |(apply_decay c3State 130600).value| < |c3State.value|) := by
  have h := decay_toward_zero c3State 130600
  have h3 := h.2.2.1 (by decide)
  have h5 := (h.2.2.2.2 (by with_unfolding_all decide)
    (by with_unfolding_all decide)).2 (by decide)
  exact ⟨⟨by decide, h3.1, h3.2⟩,
    ⟨by with_unfolding_all decide, by with_unfolding_all decide,
      by decide, h5⟩⟩

/-- C4 is wrong on the code: when the effective reference timestamp is
positive but the elapsed inactivity is shorter than the decay interval,
`_apply_decay` returns before touching `last_decay_ts`.  Concretely, a
state with `last_decay_ts = 100` evaluated at `now = 150` keeps
`last_decay_ts = 100 ≠ 150`. -/
theorem decay_ts_counterexample :
    (apply_decay c4State 150).last_decay_ts = 100 ∧ ((100 : ℚ) ≠ 150) := by
  constructor
  · with_unfolding_all decide
  · norm_num

/-- C4 amended: `last_decay_ts` is set to `now` when the reference
timestamp was unset or when the decay window elapsed; when the window has
not yet elapsed (positive reference), `last_decay_ts` is left unchanged. -/
theorem decay_ts_advance_amended (s : EngineState) (now : ℚ) :
    (effective_decay_ts s ≤ 0 → (apply_decay s now).last_decay_ts = now) ∧
    (0 < effective_decay_ts s →
      decay_interval_seconds ≤ now - effective_decay_ts s →
      (apply_decay s now).last_decay_ts = now) ∧
    (0 < effective_decay_ts s →
      now - effective_decay_ts s < decay_interval_seconds →
      (apply_decay s now).last_decay_ts = s.last_decay_ts) := by
  refine ⟨fun hu => ?_, fun h1 h2 => ?_, fun h1 h2 => ?_⟩
  · rw [apply_decay_unset s now hu]
  · rw [apply_decay_fire s now h1 h2]
    split_ifs <;> rfl
  · rw [apply_decay_nofire s now h1 h2]

/-- Witness for the amended C4, exercising all three branches on
concrete states. -/
theorem decay_ts_advance_amended_witness :
    (effective_decay_ts initialState ≤ 0 ∧
      (apply_decay initialState 7).last_decay_ts = 7) ∧
    (0 < effective_decay_ts c3State ∧
      decay_interval_seconds ≤ 130600 - effective_decay_ts c3State ∧
      (apply_decay c3State 130600).last_decay_ts = 130600) ∧
    (0 < effective_decay_ts c4State ∧
      150 - effective_decay_ts c4State < decay_interval_seconds ∧
      (apply_decay c4State 150).last_decay_ts = c4State.last_decay_ts) := by
  refine ⟨⟨by with_unfolding_all decide, ?_⟩,
    ⟨by with_unfolding_all decide, by with_unfolding_all decide, ?_⟩,
    ⟨by with_unfolding_all decide, by with_unfolding_all decide, ?_⟩⟩
  · exact (decay_ts_advance_amended initialState 7).1
      (by with_unfolding_all decide)
  · exact (decay_ts_advance_amended c3State 130600).2.1
      (by with_unfolding_all decide) (by with_unfolding_all decide)
  · exact (decay_ts_advance_amended c4State 150).2.2
      (by with_unfolding_all decide) (by with_unfolding_all decide)

/-! ### Cooldown gating (C10) -/

lemma cooldown_mult_of_zero (s : EngineState) (now : ℚ)
    (h : s.last_change_ts = 0) : cooldown_mult s now = 1 := by
  simp [cooldown_mult, h]

/-- C10: the `0.35` cooldown damping used by
`apply_relationship_dynamics` never applies when `last_change_ts = 0`
(fresh relationship), however small `now` is; any non-unit multiplier
requires a strictly positive `last_change_ts` within the cooldown
window. -/
theorem cooldown_needs_positive_last_change (s : EngineState) (now : ℚ) :
    (s.last_change_ts = 0 → cooldown_mult s now = 1) ∧
    (cooldown_mult s now ≠ 1 →
      0 < s.last_change_ts ∧ now - s.last_change_ts < cooldown_seconds) := by
  constructor
  · exact cooldown_mult_of_zero s now
  · intro h
    by_cases hc : 0 < s.last_change_ts ∧
        now - s.last_change_ts < cooldown_seconds
    · exact hc
    · exact absurd (by simp [cooldown_mult, hc]) h

/-- Witness for C10 at the fresh state and a very small (negative)
`now`. -/
theorem cooldown_needs_positive_last_change_witness :
    initialState.last_change_ts = 0 ∧
      cooldown_mult initialState (-1000000) = 1 :=
  ⟨rfl, (cooldown_needs_positive_last_change initialState (-1000000)).1 rfl⟩

/-! ### Load-failure degradation (C9) -/

/-- C9: a raising store read, an undecodable payload, and a decodable
but non-object payload all leave the engine in the fresh default state
after `load_config`; the modelled `load_config` is a total function, so no
failure escapes to the caller. -/
theorem store_failure_degrades_to_defaults (cfg : Config)
    (h : 0 ≤ cfg.max_value) :
    load_config cfg ReadResult.failure = initialState ∧
    load_config cfg ReadResult.corrupt = initialState ∧
    load_config cfg ReadResult.notDict = initialState := by
  have hnl : ¬ cfg.max_value < initialState.value := by
    simp only [initialState]
    omega
  refine ⟨?_, ?_, ?_⟩ <;>
    · simp [load_config, load_from_store, hnl, min_value, initialState]
      split_ifs <;> omega

/-- Witness for C9 at the stock configuration. -/
theorem store_failure_degrades_to_defaults_witness :
    0 ≤ defaultConfig.max_value ∧
      load_config defaultConfig ReadResult.failure = initialState :=
  ⟨by decide,
    (store_failure_degrades_to_defaults defaultConfig (by decide)).1⟩

/-! ### Serialization round-trip (C8) -/

/-- C8: serializing a state and loading it back reproduces every field
(for any state whose schema version is not the falsy `0`, which the
save path renormalizes to `1`); the legacy bare-score record
`{"value": 42}` loads with score `42` and every other field at its
zero/empty default. -/
theorem state_roundtrip (s : EngineState) (hv : s.version ≠ 0) :
    load_state (serialize_state s) = s ∧
    load_state legacyRecord42 = { initialState with value := 42 } := by
  constructor
  · simp [load_state, serialize_state, stateOfRecord, hv]
  · with_unfolding_all decide

/-- Witness for C8 on a state with every field non-default. -/
theorem state_roundtrip_witness :
    c8State.version ≠ 0 ∧ load_state (serialize_state c8State) = c8State :=
  ⟨by with_unfolding_all decide,
    (state_roundtrip c8State (by with_unfolding_all decide)).1⟩

/-! ### Relationship-dynamics analysis (C2, C6) -/

lemma cooldown_mult_pos (s : EngineState) (now : ℚ) :
    0 < cooldown_mult s now := by
  unfold cooldown_mult
  split_ifs <;> norm_num

lemma ratio_of_nonneg (cfg : Config) (s : EngineState) :
    0 ≤ ratio_of cfg s := by
  unfold ratio_of
  split_ifs
  · exact le_max_left 0 _
  · exact le_refl 0

lemma ratio_of_of_nonpos (cfg : Config) (s : EngineState)
    (hv : s.value ≤ 0) : ratio_of cfg s = 0 := by
  unfold ratio_of
  split_ifs with h
  · have hq : ((s.value : ℚ) / (cfg.max_value : ℚ)) ≤ 0 :=
      div_nonpos_of_nonpos_of_nonneg (by exact_mod_cast hv) (by positivity)
    have : min 1 ((s.value : ℚ) / (cfg.max_value : ℚ)) ≤ 0 :=
      le_trans (min_le_right _ _) hq
    exact max_eq_left this
  · rfl

/-- Positive-branch closed form of the dynamics pipeline. -/
lemma apply_relationship_dynamics_pos (cfg : Config) (s : EngineState)
    (b : Int) (p n : Nat) (now : ℚ) (hb : 0 < b) :
    apply_relationship_dynamics cfg s b p n now =
      max (-cfg.max_manner_change) (min cfg.max_manner_change (force_round
        ((b : ℚ) * (max (7/20) (min (6/5) (11/10 - ratio_of cfg s * (3/5)))) *
          (1 / (1 + ((count_recent s now).1 : ℚ) / 3)) *
          (if 2 ≤ s.repeat_count then 11/20 else 1) *
          cooldown_mult s now *
          (1 + min (1/5) ((s.pos_streak : ℚ) * (1/20)))))) := by
  simp only [apply_relationship_dynamics]
  rw [if_neg (by omega : ¬ b = 0), if_pos hb]

/-- Negative-branch closed form of the dynamics pipeline. -/
lemma apply_relationship_dynamics_neg (cfg : Config) (s : EngineState)
    (b : Int) (p n : Nat) (now : ℚ) (hb : b < 0) :
    apply_relationship_dynamics cfg s b p n now =
      max (-cfg.max_manner_change) (min cfg.max_manner_change (force_round
        ((b : ℚ) *
          (max (3/5) (min (8/5) (13/20 + (1 - ratio_of cfg s) * (7/10)))) *
          (1 / (1 + ((count_recent s now).2 : ℚ) / 5)) *
          (if 2 ≤ s.repeat_count then 23/20 else 1) *
          cooldown_mult s now *
          (1 + min (7/20) ((s.neg_streak : ℚ) * (3/25)))))) := by
  simp only [apply_relationship_dynamics]
  rw [if_neg (by omega : ¬ b = 0), if_neg (by omega : ¬ 0 < b)]

/-- The round-then-clamp tail of the pipeline is monotone. -/
lemma clamp_force_round_mono (M : Int) {x y : ℚ} (h : x ≤ y) :
    max (-M) (min M (force_round x)) ≤ max (-M) (min M (force_round y)) := by
  rw [force_round_eq_pyRound, force_round_eq_pyRound]
  have := pyRound_mono h
  omega

lemma dynamics_nonneg (cfg : Config) (s : EngineState) {b : Int}
    (p n : Nat) (now : ℚ) (hb : 0 ≤ b) (hp : 0 ≤ s.pos_streak) :
    0 ≤ apply_relationship_dynamics cfg s b p n now := by
  rcases eq_or_lt_of_le hb with h0 | hpos
  · simp [apply_relationship_dynamics, ← h0]
  · rw [apply_relationship_dynamics_pos cfg s b p n now hpos]
    have hlvl : (0 : ℚ) ≤
        max (7/20) (min (6/5) (11/10 - ratio_of cfg s * (3/5))) :=
      le_trans (by norm_num) (le_max_left _ _)
    have hdim : (0 : ℚ) ≤ 1 / (1 + ((count_recent s now).1 : ℚ) / 3) := by
      positivity
    have hrep : (0 : ℚ) ≤ (if 2 ≤ s.repeat_count then (11 : ℚ)/20 else 1) := by
      split_ifs <;> norm_num
    have hcd : (0 : ℚ) ≤ cooldown_mult s now := (cooldown_mult_pos s now).le
    have hst : (0 : ℚ) ≤ 1 + min (1/5) ((s.pos_streak : ℚ) * (1/20)) := by
      have hc : (0 : ℚ) ≤ (s.pos_streak : ℚ) := by exact_mod_cast hp
      have : (0 : ℚ) ≤ min (1/5) ((s.pos_streak : ℚ) * (1/20)) :=
        le_min (by norm_num) (by positivity)
      linarith
    have hbq : (0 : ℚ) ≤ (b : ℚ) := by exact_mod_cast hpos.le
    have hff : (0 : ℚ) ≤ (b : ℚ) *
        (max (7/20) (min (6/5) (11/10 - ratio_of cfg s * (3/5)))) *
        (1 / (1 + ((count_recent s now).1 : ℚ) / 3)) *
        (if 2 ≤ s.repeat_count then (11 : ℚ)/20 else 1) *
        cooldown_mult s now *
        (1 + min (1/5) ((s.pos_streak : ℚ) * (1/20))) := by
      apply mul_nonneg
      apply mul_nonneg
      apply mul_nonneg
      apply mul_nonneg
      apply mul_nonneg hbq hlvl
      all_goals assumption
    rw [force_round_eq_pyRound]
    have := pyRound_nonneg hff
    omega

lemma dynamics_nonpos (cfg : Config) (s : EngineState) {b : Int}
    (p n : Nat) (now : ℚ) (hb : b ≤ 0) (hn : 0 ≤ s.neg_streak)
    (hM : 0 ≤ cfg.max_manner_change) :
    apply_relationship_dynamics cfg s b p n now ≤ 0 := by
  rcases eq_or_lt_of_le hb with h0 | hneg
  · simp [apply_relationship_dynamics, h0]
  · rw [apply_relationship_dynamics_neg cfg s b p n now hneg]
    have hlvl : (0 : ℚ) ≤
        max (3/5) (min (8/5) (13/20 + (1 - ratio_of cfg s) * (7/10))) :=
      le_trans (by norm_num) (le_max_left _ _)
    have hdim : (0 : ℚ) ≤ 1 / (1 + ((count_recent s now).2 : ℚ) / 5) := by
      positivity
    have hrep : (0 : ℚ) ≤ (if 2 ≤ s.repeat_count then (23 : ℚ)/20 else 1) := by
      split_ifs <;> norm_num
    have hcd : (0 : ℚ) ≤ cooldown_mult s now := (cooldown_mult_pos s now).le
    have hst : (0 : ℚ) ≤ 1 + min (7/20) ((s.neg_streak : ℚ) * (3/25)) := by
      have hc : (0 : ℚ) ≤ (s.neg_streak : ℚ) := by exact_mod_cast hn
      have : (0 : ℚ) ≤ min (7/20) ((s.neg_streak : ℚ) * (3/25)) :=
        le_min (by norm_num) (by positivity)
      linarith
    have hbq : (b : ℚ) ≤ 0 := by exact_mod_cast hneg.le
    have hff : (b : ℚ) *
        (max (3/5) (min (8/5) (13/20 + (1 - ratio_of cfg s) * (7/10)))) *
        (1 / (1 + ((count_recent s now).2 : ℚ) / 5)) *
        (if 2 ≤ s.repeat_count then (23 : ℚ)/20 else 1) *
        cooldown_mult s now *
        (1 + min (7/20) ((s.neg_streak : ℚ) * (3/25))) ≤ 0 := by
      apply mul_nonpos_iff.mpr
      refine Or.inr ⟨?_, hst⟩
      apply mul_nonpos_iff.mpr
      refine Or.inr ⟨?_, hcd⟩
      apply mul_nonpos_iff.mpr
      refine Or.inr ⟨?_, hrep⟩
      apply mul_nonpos_iff.mpr
      refine Or.inr ⟨?_, hdim⟩
      apply mul_nonpos_iff.mpr
      exact Or.inr ⟨hbq, hlvl⟩
    rw [force_round_eq_pyRound]
    have := pyRound_nonpos hff
    omega

/-! ### Sentiment sign dominance (C2) -/

lemma determine_sentiment_eq (cfg : Config) (s : EngineState)
    (text : String) (p n : Nat) (now : ℚ) (hpn : p + n ≠ 0)
    (htext : text.trim ≠ "") :
    determine_manner_change cfg s text p n now =
      (event_tail cfg (apply_decay s now)
        (apply_relationship_dynamics cfg (apply_decay s now)
          (derive_base_change cfg p n) p n now)
        (normalize_user_text text.trim) now,
       some (apply_relationship_dynamics cfg (apply_decay s now)
          (derive_base_change cfg p n) p n now)) := by
  unfold determine_manner_change
  simp [htext, hpn]

lemma determine_neutral_eq (cfg : Config) (s : EngineState)
    (text : String) (now : ℚ) (htext : text.trim ≠ "") :
    determine_manner_change cfg s text 0 0 now =
      (event_tail cfg (apply_decay s now)
        (if is_trivial_message text.trim then 0
         else apply_relationship_dynamics cfg (apply_decay s now) 1 0 0 now)
        (normalize_user_text text.trim) now,
       some (if is_trivial_message text.trim then 0
         else apply_relationship_dynamics cfg (apply_decay s now) 1 0 0 now)) := by
  unfold determine_manner_change
  simp [htext]

lemma derive_base_change_nonneg_30 (cfg : Config) :
    0 ≤ derive_base_change cfg 3 0 := by
  simp only [derive_base_change]
  norm_num
  rw [pyRound_intCast]
  split_ifs <;> omega

lemma derive_base_change_nonpos_03 (cfg : Config)
    (hM : 0 ≤ cfg.max_manner_change) : derive_base_change cfg 0 3 ≤ 0 := by
  simp only [derive_base_change]
  norm_num
  rw [show (-(cfg.max_manner_change : ℚ)) = ((-cfg.max_manner_change : ℤ) : ℚ)
    by push_cast; ring, pyRound_intCast]
  split_ifs <;> omega

/-- C2 amended: with the per-event cap non-negative and sane (non-negative)
streak counters, an update with sentiment counts `positive=3, negative=0`
never applies a negative delta, and one with `positive=0, negative=3`
never applies a positive delta.  (The original strict claim — the delta is
never zero — fails: stacked damping can round the modified delta to 0, see
the counterexample.) -/
theorem sign_dominance_amended (cfg : Config) (s : EngineState)
    (text : String) (now : ℚ) (d : Int) (hM : 0 ≤ cfg.max_manner_change)
    (hp : 0 ≤ s.pos_streak) (hn : 0 ≤ s.neg_streak) :
    ((determine_manner_change cfg s text 3 0 now).2 = some d → 0 ≤ d) ∧
    ((determine_manner_change cfg s text 0 3 now).2 = some d → d ≤ 0) := by
  by_cases htext : text.trim = ""
  · constructor <;>
      · intro h
        simp [determine_manner_change, htext] at h
  · constructor
    · intro h
      rw [determine_sentiment_eq cfg s text 3 0 now (by norm_num) htext] at h
      simp only at h
      obtain rfl : _ = d := Option.some_injective _ h
      exact dynamics_nonneg cfg (apply_decay s now) 3 0 now
        (derive_base_change_nonneg_30 cfg)
        (by rw [apply_decay_pos_streak]; exact hp)
    · intro h
      rw [determine_sentiment_eq cfg s text 0 3 now (by norm_num) htext] at h
      simp only at h
      obtain rfl : _ = d := Option.some_injective _ h
      exact dynamics_nonpos cfg (apply_decay s now) 0 3 now
        (derive_base_change_nonpos_03 cfg hM)
        (by rw [apply_decay_neg_streak]; exact hn) hM

/-- Witness for the amended C2: from the fresh state, counts `3/0` apply
`+10` and counts `0/3` apply `-10`. -/
theorem sign_dominance_amended_witness :
    ((determine_manner_change defaultConfig initialState "abcd" 3 0
        1000).2 = some 10 ∧ (0 : Int) ≤ 10) ∧
    ((determine_manner_change defaultConfig initialState "abcd" 0 3
        1000).2 = some (-10) ∧ (-10 : Int) ≤ 0) := by
  have e1 : (determine_manner_change defaultConfig initialState "abcd" 3 0
      1000).2 = some 10 := by with_unfolding_all decide
  have e2 : (determine_manner_change defaultConfig initialState "abcd" 0 3
      1000).2 = some (-10) := by with_unfolding_all decide
  exact ⟨⟨e1, (sign_dominance_amended defaultConfig initialState "abcd" 1000
      10 (by decide) (by decide) (by decide)).1 e1⟩,
    ⟨e2, (sign_dominance_amended defaultConfig initialState "abcd" 1000
      (-10) (by decide) (by decide) (by decide)).2 e2⟩⟩

lemma c2_step0 :
    applyOp defaultConfig initialState (Op.determine "abcd" 3 0 1000) =
      c2s 1 := by with_unfolding_all decide

lemma c2_step1 :
    applyOp defaultConfig (c2s 1) (Op.determine "abcd" 3 0 1001) =
      c2s 2 := by with_unfolding_all decide

lemma c2_step2 :
    applyOp defaultConfig (c2s 2) (Op.determine "abcd" 3 0 1002) =
      c2s 3 := by with_unfolding_all decide

lemma c2_step3 :
    applyOp defaultConfig (c2s 3) (Op.determine "abcd" 3 0 1003) =
      c2s 4 := by with_unfolding_all decide

lemma c2_step4 :
    applyOp defaultConfig (c2s 4) (Op.determine "abcd" 3 0 1004) =
      c2s 5 := by with_unfolding_all decide

lemma c2_step5 :
    applyOp defaultConfig (c2s 5) (Op.determine "abcd" 3 0 1005) =
      c2s 6 := by with_unfolding_all decide

lemma c2_step6 :
    applyOp defaultConfig (c2s 6) (Op.determine "abcd" 3 0 1006) =
      c2s 7 := by with_unfolding_all decide

lemma c2_step7 :
    applyOp defaultConfig (c2s 7) (Op.determine "abcd" 3 0 1007) =
      c2s 8 := by with_unfolding_all decide

lemma c2_step8 :
    applyOp defaultConfig (c2s 8) (Op.determine "abcd" 3 0 1008) =
      c2s 9 := by with_unfolding_all decide

lemma c2_step9 :
    applyOp defaultConfig (c2s 9) (Op.determine "abcd" 3 0 1009) =
      c2s 10 := by with_unfolding_all decide

lemma c2_step10 :
    applyOp defaultConfig (c2s 10) (Op.determine "abcd" 3 0 1010) =
      c2s 11 := by with_unfolding_all decide

lemma c2_fold :
    c2Ops.foldl (applyOp defaultConfig) initialState = c2s 11 := by
  simp only [c2Ops, List.foldl]
  rw [c2_step0, c2_step1, c2_step2, c2_step3, c2_step4, c2_step5, c2_step6,
    c2_step7, c2_step8, c2_step9, c2_step10]

/-- C2 as stated is wrong on the code: the state reached from the fresh
default by eleven sends of the same positive message (counts `3/0`) at
one-second intervals has stacked repeat suppression (`0.55`), cooldown
damping (`0.35`), eleven recent positive events (diminishing returns) and
a near-saturated score, so the twelfth identical update — still with
`positive=3, negative=0` — rounds to an applied delta of exactly `0`,
which is not strictly positive. -/
theorem sign_dominance_counterexample :
    Reachable defaultConfig (c2s 11) ∧
    (determine_manner_change defaultConfig (c2s 11) "abcd" 3 0 1011).2 =
      some 0 := by
  constructor
  · exact ⟨c2Ops, c2_fold.symm⟩
  · with_unfolding_all decide

/-! ### Saturation asymmetry (C6) -/

/-- C6 as stated is wrong on the code: integer rounding can erase the
level-multiplier reduction.  With the stock configuration, a fresh
history and base delta `+1`, the final delta at score `99` (near the
ceiling `100`) equals the final delta at score `0` — both are `1` — so it
is not strictly smaller in magnitude. -/
theorem saturation_asymmetry_counterexample :
    apply_relationship_dynamics defaultConfig c6State 1 0 0 2000 = 1 ∧
    apply_relationship_dynamics defaultConfig { c6State with value := 0 }
      1 0 0 2000 = 1 ∧
    ¬ ((1 : Int) < 1) := by
  refine ⟨?_, ?_, by omega⟩ <;> with_unfolding_all decide

/-- C6 amended: for the same base delta and identical history, a positive
base delta at any non-negative score yields a non-negative final delta
that is less than or equal to the one at score `0` (magnitude never
larger); a negative base delta at any non-positive score yields exactly
the final delta of score `0` (magnitude never smaller). -/
theorem saturation_asymmetry_amended (cfg : Config) (s : EngineState)
    (b : Int) (p n : Nat) (now : ℚ) :
    (0 < b → 0 ≤ s.pos_streak → 0 ≤ s.value →
      0 ≤ apply_relationship_dynamics cfg s b p n now ∧
      apply_relationship_dynamics cfg s b p n now ≤
        apply_relationship_dynamics cfg { s with value := 0 } b p n now) ∧
    (b < 0 → s.value ≤ 0 →
      apply_relationship_dynamics cfg s b p n now =
        apply_relationship_dynamics cfg { s with value := 0 } b p n now) := by
  constructor
  · intro hb hp hv
    refine ⟨dynamics_nonneg cfg s p n now hb.le hp, ?_⟩
    rw [apply_relationship_dynamics_pos cfg s b p n now hb,
      apply_relationship_dynamics_pos cfg _ b p n now hb]
    rw [ratio_of_of_nonpos cfg { s with value := 0 } (le_refl 0)]
    simp only
    apply clamp_force_round_mono
    rw [show max (7/20) (min (6/5) (11/10 - 0 * (3/5))) = (11/10 : ℚ)
      by norm_num]
    set d1 : ℚ := 1 / (1 + ((count_recent s now).1 : ℚ) / 3) with hd1
    set r1 : ℚ := (if 2 ≤ s.repeat_count then (11 : ℚ)/20 else 1) with hr1
    set c1 : ℚ := cooldown_mult s now with hc1
    set t1 : ℚ := 1 + min (1/5) ((s.pos_streak : ℚ) * (1/20)) with ht1
    have hd1p : 0 ≤ d1 := by rw [hd1]; positivity
    have hr1p : 0 ≤ r1 := by rw [hr1]; split_ifs <;> norm_num
    have hc1p : 0 ≤ c1 := by rw [hc1]; exact (cooldown_mult_pos s now).le
    have ht1p : 0 ≤ t1 := by
      rw [ht1]
      have hc : (0 : ℚ) ≤ (s.pos_streak : ℚ) := by exact_mod_cast hp
      have : (0 : ℚ) ≤ min (1/5) ((s.pos_streak : ℚ) * (1/20)) :=
        le_min (by norm_num) (by positivity)
      linarith
    have hbq : (0 : ℚ) ≤ (b : ℚ) := by exact_mod_cast hb.le
    have hrest : (0 : ℚ) ≤ (b : ℚ) * d1 * r1 * c1 * t1 := by
      apply mul_nonneg
      apply mul_nonneg
      apply mul_nonneg
      apply mul_nonneg hbq hd1p
      all_goals assumption
    have hr : 0 ≤ ratio_of cfg s := ratio_of_nonneg cfg s
    have hlvl : max (7/20) (min (6/5) (11/10 - ratio_of cfg s * (3/5))) ≤
        (11/10 : ℚ) := by
      apply max_le (by norm_num)
      refine le_trans (min_le_right _ _) (by nlinarith)
    calc (b : ℚ) * (max (7/20) (min (6/5) (11/10 - ratio_of cfg s * (3/5)))) *
          d1 * r1 * c1 * t1
        = (max (7/20) (min (6/5) (11/10 - ratio_of cfg s * (3/5)))) *
          ((b : ℚ) * d1 * r1 * c1 * t1) := by ring
      _ ≤ (11/10 : ℚ) * ((b : ℚ) * d1 * r1 * c1 * t1) :=
          mul_le_mul_of_nonneg_right hlvl hrest
      _ = (b : ℚ) * (11/10 : ℚ) * d1 * r1 * c1 * t1 := by ring
  · intro hb hv
    rw [apply_relationship_dynamics_neg cfg s b p n now hb,
      apply_relationship_dynamics_neg cfg _ b p n now hb,
      ratio_of_of_nonpos cfg s hv,
      ratio_of_of_nonpos cfg { s with value := 0 } (le_refl 0)]
    rfl

/-- Witness for the amended C6, at the near-ceiling state (positive half)
and a negative-score state (negative half). -/
theorem saturation_asymmetry_amended_witness :
    (0 ≤ apply_relationship_dynamics defaultConfig c6State 1 0 0 2000 ∧
      apply_relationship_dynamics defaultConfig c6State 1 0 0 2000 ≤
        apply_relationship_dynamics defaultConfig
          { c6State with value := 0 } 1 0 0 2000) ∧
    apply_relationship_dynamics defaultConfig c6NegState (-3) 0 0 2000 =
      apply_relationship_dynamics defaultConfig
        { c6NegState with value := 0 } (-3) 0 0 2000 :=
  ⟨(saturation_asymmetry_amended defaultConfig c6State 1 0 0 2000).1
      (by decide) (by decide) (by decide),
    (saturation_asymmetry_amended defaultConfig c6NegState (-3) 0 0
      2000).2 (by decide) (by decide)⟩

/-! ### Neutral nudge and trivial inertness (C5) -/

lemma apply_decay_initial (now : ℚ) :
    apply_decay initialState now =
      { initialState with last_decay_ts := now } :=
  apply_decay_unset initialState now
    (by simp [effective_decay_ts, initialState])

lemma pyRound_eleven_tenths : pyRound (11/10 : ℚ) = 1 := by
  rw [pyRound_eq]
  norm_num

lemma dynamics_fresh_one (cfg : Config) (hM : 1 ≤ cfg.max_manner_change)
    (now : ℚ) :
    apply_relationship_dynamics cfg
      { initialState with last_decay_ts := now } 1 0 0 now = 1 := by
  rw [apply_relationship_dynamics_pos _ _ _ _ _ _ (by norm_num)]
  rw [ratio_of_of_nonpos cfg _ (le_refl 0)]
  rw [show count_recent { initialState with last_decay_ts := now } now =
    (0, 0) from rfl]
  rw [cooldown_mult_of_zero _ _ rfl]
  norm_num [initialState]
  rw [force_round_eq_pyRound, pyRound_eleven_tenths]
  omega

/-- C5: from the fresh default state, a zero-sentiment update on a
non-trivial utterance applies a delta of exactly `+1` (given a per-event
cap of at least 1), while a zero-sentiment update on a trivial, non-blank
utterance applies a delta of exactly `0`. -/
theorem neutral_nudge_and_trivial_inert (cfg : Config) (text : String)
    (now : ℚ) (hM : 1 ≤ cfg.max_manner_change) (ht : text.trim ≠ "") :
    (is_trivial_message text.trim = true →
      (determine_manner_change cfg initialState text 0 0 now).2 = some 0) ∧
    (is_trivial_message text.trim = false →
      (determine_manner_change cfg initialState text 0 0 now).2 = some 1) := by
  rw [determine_neutral_eq cfg initialState text now ht]
  constructor
  · intro htriv
    simp [htriv]
  · intro htriv
    simp only [htriv, Bool.false_eq_true, if_false]
    rw [apply_decay_initial now, dynamics_fresh_one cfg hM now]

/-- Witness for C5: the trivial filler "嗯嗯" applies delta 0, the
substantive "hello" applies delta +1, at the stock configuration. -/
theorem neutral_nudge_and_trivial_inert_witness :
    (1 ≤ defaultConfig.max_manner_change ∧ "嗯嗯".trim ≠ "" ∧
      is_trivial_message "嗯嗯".trim = true ∧
      (determine_manner_change defaultConfig initialState "嗯嗯" 0 0
        500).2 = some 0) ∧
    ("hello".trim ≠ "" ∧ is_trivial_message "hello".trim = false ∧
      (determine_manner_change defaultConfig initialState "hello" 0 0
        500).2 = some 1) := by
  refine ⟨⟨by decide, by with_unfolding_all decide,
    by with_unfolding_all decide, ?_⟩,
    ⟨by with_unfolding_all decide, by with_unfolding_all decide, ?_⟩⟩
  · exact (neutral_nudge_and_trivial_inert defaultConfig "嗯嗯" 500
      (by decide) (by with_unfolding_all decide)).1
      (by with_unfolding_all decide)
  · exact (neutral_nudge_and_trivial_inert defaultConfig "hello" 500
      (by decide) (by with_unfolding_all decide)).2
      (by with_unfolding_all decide)

/-! ### Streak exclusivity (C7) -/

/-- C7: after an update that applied a nonzero delta, the streak counter
of the opposite sign is reset to 0 (so at most one streak counter grew);
after an update that applied a zero delta, both streak counters are
decremented by one, floored at zero. -/
theorem streak_exclusivity (cfg : Config) (s : EngineState)
    (text : String) (p n : Nat) (now : ℚ) (d : Int)
    (h : (determine_manner_change cfg s text p n now).2 = some d) :
    (0 < d →
      (determine_manner_change cfg s text p n now).1.neg_streak = 0) ∧
    (d < 0 →
      (determine_manner_change cfg s text p n now).1.pos_streak = 0) ∧
    (d = 0 →
      (determine_manner_change cfg s text p n now).1.pos_streak =
        max 0 (s.pos_streak - 1) ∧
      (determine_manner_change cfg s text p n now).1.neg_streak =
        max 0 (s.neg_streak - 1)) := by
  rcases determine_shape cfg s text p n now with ⟨_, heq⟩ | ⟨c, heq⟩
  · rw [heq] at h
    simp at h
  · have hc : c = d := by
      rw [heq] at h
      simpa using h
    subst hc
    rw [heq]
    simp only [event_tail_pos_streak, event_tail_neg_streak,
      apply_decay_pos_streak, apply_decay_neg_streak]
    refine ⟨fun hd => ?_, fun hd => ?_, fun hd => ?_⟩
    · rw [if_pos hd]
    · rw [if_neg (by omega), if_pos hd]
    · subst hd
      constructor <;> simp

/-- Witness for C7: the fresh-state `3/0` update applies `+10` and leaves
`neg_streak = 0`. -/
theorem streak_exclusivity_witness :
    (determine_manner_change defaultConfig initialState "abcd" 3 0
      1000).2 = some 10 ∧ (0 : Int) < 10 ∧
    (determine_manner_change defaultConfig initialState "abcd" 3 0
      1000).1.neg_streak = 0 := by
  have e : (determine_manner_change defaultConfig initialState "abcd" 3 0
      1000).2 = some 10 := by with_unfolding_all decide
  exact ⟨e, by omega,
    (streak_exclusivity defaultConfig initialState "abcd" 3 0 1000 10
      e).1 (by omega)⟩

end ValueGame
